import Mathlib

/-!
Verification of the Purrify scan-classify-deduplicate-cleanup pipeline.

Shallow embedding of the relevant source modules:
  * `src/purrify/scanners/system_scanner.py` (SystemScanner)
  * `src/purrify/core/engine.py` (PurrifyEngine)
  * `src/purrify/cleaners/cache_cleaner.py` (CacheCleaner)
  * `src/purrify_core/utils/file_utils.py` (FileUtils)
  * `src/purrify_core/utils/hash_utils.py` (HashUtils)

Machine integers are modelled as `Nat`/`Int` with explicit `% 2^32` where MD5
needs 32-bit wraparound; timestamps and durations (Python floats holding POSIX
seconds) are modelled as exact rationals; fallible file-system reads are
modelled as `Option`-valued lookups.
-/

namespace Purrify

/-! ## String helpers (Python `in`, `str.lower`, `Path.match`, `Path.suffix`) -/

/-- Python `str.lower` (ASCII case folding, which covers the configured
pattern tables and paths). -/
def strLower (s : String) : String :=
  String.mk (s.toList.map Char.toLower)

/-- Python `needle in hay` for strings: `needle` occurs as a contiguous
substring of `hay` (the empty needle always matches). -/
def strContains (hay needle : String) : Bool :=
  go needle.toList hay.toList
where
  go (n h : List Char) : Bool :=
    n.isPrefixOf h ||
      match h with
      | [] => false
      | _ :: t => go n t

/-- Python `any(entry in path for entry in entries)`. -/
def containsAny (entries : List String) (path : String) : Bool :=
  entries.any (fun e => strContains path e)

/-- Case-insensitive variant: both sides lowered first, as in
`FileUtils.is_safe_to_delete`. -/
def containsAnyLower (entries : List String) (path : String) : Bool :=
  entries.any (fun e => strContains (strLower path) (strLower e))

/-- Fuel-driven worker for `wildMatch`; every recursive call shrinks
`p.length + s.length`, so fuel `p.length + s.length + 1` never runs out. -/
def wildMatchF : Nat → List Char → List Char → Bool
  | 0, _, _ => false
  | _ + 1, [], [] => true
  | _ + 1, [], _ :: _ => false
  | f + 1, '*' :: ps, [] => wildMatchF f ps []
  | f + 1, '*' :: ps, c :: cs =>
      wildMatchF f ps (c :: cs) || wildMatchF f ('*' :: ps) cs
  | _ + 1, '?' :: _, [] => false
  | f + 1, '?' :: ps, _ :: cs => wildMatchF f ps cs
  | _ + 1, _ :: _, [] => false
  | f + 1, q :: ps, c :: cs => (q = c) && wildMatchF f ps cs

/-- `fnmatch`-style wildcard match of one glob segment against one path
segment.  `*` matches any (possibly empty) run, `?` one character, anything
else is literal.  The configured patterns use only `*` and literals. -/
def wildMatch (p s : List Char) : Bool :=
  wildMatchF (p.length + s.length + 1) p s

/-- Split a character list on a separator (`str.split` with a one-character
separator: an empty input gives one empty field). -/
def splitChars (sep : Char) : List Char → List (List Char)
  | [] => [[]]
  | c :: t =>
    match splitChars sep t with
    | [] => [[c]]
    | g :: gs => if c = sep then [] :: g :: gs else (c :: g) :: gs

/-- `pathlib.PurePath.match` for a relative pattern: the pattern's segments
must match the trailing segments of the path, one `fnmatch` per segment.
An absolute pattern must match the whole path. -/
def pathMatch (pattern path : String) : Bool :=
  let ps := splitChars '/' pattern.toList
  let ss := splitChars '/' path.toList
  if pattern.toList.head? = some '/' then
    ps.length = ss.length &&
      (List.zip ps ss).all (fun q => wildMatch q.1 q.2)
  else
    ss.length ≥ ps.length &&
      (List.zip ps (ss.drop (ss.length - ps.length))).all
        (fun q => wildMatch q.1 q.2)

/-- `pathlib.PurePath.suffix`: the final extension of the last path component,
with the dot; empty when the last dot is leading or trailing. -/
def pathSuffix (path : String) : String :=
  let name := (splitChars '/' path.toList).getLastD []
  let idxs := (List.range name.length).filter (fun i => name.getD i ' ' = '.')
  match idxs.getLast? with
  | none => ""
  | some i => if 0 < i ∧ i + 1 < name.length then String.mk (name.drop i) else ""

/-- Python `str.count("/")`. -/
def countSlashes (path : String) : Nat :=
  path.toList.countP (fun c => c = '/')

/-! ## MD5 (`hashlib.md5`)

The scanner and `HashUtils` both hash file contents with MD5.  `hashlib`'s
incremental interface is digest-of-concatenation: the digest of a sequence of
`update` calls is the MD5 of the concatenated data.  We implement RFC 1321 MD5
over byte lists, with 32-bit words as `Nat` reduced `% 2^32`. -/

/-- Truncate to a 32-bit word. -/
def mod32 (x : Nat) : Nat := x % 4294967296

/-- 32-bit addition with wraparound. -/
def add32 (a b : Nat) : Nat := (a + b) % 4294967296

/-- 32-bit bitwise complement (operands are already `< 2^32`). -/
def not32 (x : Nat) : Nat := x ^^^ 4294967295

/-- 32-bit left rotation. -/
def rotl32 (x n : Nat) : Nat :=
  ((x <<< n) % 4294967296) ||| (x >>> (32 - n))

/-- MD5 round function F. -/
def md5F (b c d : Nat) : Nat := (b &&& c) ||| (not32 b &&& d)

/-- MD5 round function G. -/
def md5G (b c d : Nat) : Nat := (b &&& d) ||| (c &&& not32 d)

/-- MD5 round function H. -/
def md5H (b c d : Nat) : Nat := b ^^^ c ^^^ d

/-- MD5 round function I. -/
def md5I (b c d : Nat) : Nat := c ^^^ (b ||| not32 d)

/-- The 64 sine-derived additive constants of RFC 1321. -/
def md5K : List Nat :=
  [0xd76aa478, 0xe8c7b756, 0x242070db, 0xc1bdceee,
   0xf57c0faf, 0x4787c62a, 0xa8304613, 0xfd469501,
   0x698098d8, 0x8b44f7af, 0xffff5bb1, 0x895cd7be,
   0x6b901122, 0xfd987193, 0xa679438e, 0x49b40821,
   0xf61e2562, 0xc040b340, 0x265e5a51, 0xe9b6c7aa,
   0xd62f105d, 0x02441453, 0xd8a1e681, 0xe7d3fbc8,
   0x21e1cde6, 0xc33707d6, 0xf4d50d87, 0x455a14ed,
   0xa9e3e905, 0xfcefa3f8, 0x676f02d9, 0x8d2a4c8a,
   0xfffa3942, 0x8771f681, 0x6d9d6122, 0xfde5380c,
   0xa4beea44, 0x4bdecfa9, 0xf6bb4b60, 0xbebfbc70,
   0x289b7ec6, 0xeaa127fa, 0xd4ef3085, 0x04881d05,
   0xd9d4d039, 0xe6db99e5, 0x1fa27cf8, 0xc4ac5665,
   0xf4292244, 0x432aff97, 0xab9423a7, 0xfc93a039,
   0x655b59c3, 0x8f0ccc92, 0xffeff47d, 0x85845dd1,
   0x6fa87e4f, 0xfe2ce6e0, 0xa3014314, 0x4e0811a1,
   0xf7537e82, 0xbd3af235, 0x2ad7d2bb, 0xeb86d391]

/-- The per-step left-rotation amounts of RFC 1321. -/
def md5S : List Nat :=
  [7, 12, 17, 22, 7, 12, 17, 22, 7, 12, 17, 22, 7, 12, 17, 22,
   5,  9, 14, 20, 5,  9, 14, 20, 5,  9, 14, 20, 5,  9, 14, 20,
   4, 11, 16, 23, 4, 11, 16, 23, 4, 11, 16, 23, 4, 11, 16, 23,
   6, 10, 15, 21, 6, 10, 15, 21, 6, 10, 15, 21, 6, 10, 15, 21]

/-- Assemble a little-endian 32-bit word from four bytes. -/
def leWord (b0 b1 b2 b3 : Nat) : Nat :=
  b0 + b1 * 256 + b2 * 65536 + b3 * 16777216

/-- Split a byte list (length a multiple of 4) into little-endian words. -/
def toWords : List Nat → List Nat
  | b0 :: b1 :: b2 :: b3 :: rest => leWord b0 b1 b2 b3 :: toWords rest
  | _ => []

/-- The eight little-endian bytes of the 64-bit message bit length. -/
def lengthBytes (n : Nat) : List Nat :=
  (List.range 8).map (fun i => (n >>> (8 * i)) % 256)

/-- RFC 1321 padding: append `0x80`, zero-pad to 56 mod 64 bytes, append the
64-bit little-endian bit length. -/
def padMessage (m : List Nat) : List Nat :=
  let r := m.length % 64
  m ++ 128 :: List.replicate ((119 - r) % 64) 0 ++ lengthBytes (m.length * 8)

/-- One MD5 step: round function and message index depend on the step number
`i`; the state rotates as in RFC 1321. -/
def md5Round (w : List Nat) (st : Nat × Nat × Nat × Nat) (i : Nat) :
    Nat × Nat × Nat × Nat :=
  let a := st.1
  let b := st.2.1
  let c := st.2.2.1
  let d := st.2.2.2
  let fg : Nat × Nat :=
    if i < 16 then (md5F b c d, i)
    else if i < 32 then (md5G b c d, (5 * i + 1) % 16)
    else if i < 48 then (md5H b c d, (3 * i + 5) % 16)
    else (md5I b c d, (7 * i) % 16)
  let t := add32 (add32 (add32 a fg.1) (md5K.getD i 0)) (w.getD fg.2 0)
  (d, add32 b (rotl32 t (md5S.getD i 0)), b, c)

/-- Process one 64-byte block: 64 rounds, then add the incoming state. -/
def md5Block (st : Nat × Nat × Nat × Nat) (block : List Nat) :
    Nat × Nat × Nat × Nat :=
  let w := toWords block
  let r := (List.range 64).foldl (md5Round w) st
  (add32 st.1 r.1, add32 st.2.1 r.2.1, add32 st.2.2.1 r.2.2.1,
   add32 st.2.2.2 r.2.2.2)

/-- Worker for `readChunks`: `acc` holds the current chunk reversed, `k` the
remaining capacity of the current chunk (invariant `1 ≤ k ≤ n`). -/
def chunksGo (n : Nat) : List α → List α → Nat → List (List α)
  | [], acc, _ => if acc.isEmpty then [] else [acc.reverse]
  | a :: l, acc, k =>
      if k ≤ 1 then (a :: acc).reverse :: chunksGo n l [] n
      else chunksGo n l (a :: acc) (k - 1)

/-- Split a byte list into successive chunks of `n` bytes (the last chunk may
be shorter); for `n = 0` the stream yields nothing, matching
`iter(lambda: f.read(0), b"")` stopping immediately. -/
def readChunks (n : Nat) (l : List α) : List (List α) :=
  if n = 0 then [] else chunksGo n l [] n

/-- The four final state words, each serialised as little-endian bytes. -/
def wordBytes (w : Nat) : List Nat :=
  [w % 256, (w >>> 8) % 256, (w >>> 16) % 256, (w >>> 24) % 256]

/-- MD5 digest of a byte list, as 16 bytes. -/
def md5Bytes (m : List Nat) : List Nat :=
  let st := (readChunks 64 (padMessage m)).foldl md5Block
    (0x67452301, 0xefcdab89, 0x98badcfe, 0x10325476)
  wordBytes st.1 ++ wordBytes st.2.1 ++ wordBytes st.2.2.1 ++ wordBytes st.2.2.2

/-- One lowercase hexadecimal digit. -/
def hexChar (n : Nat) : Char :=
  if n < 10 then Char.ofNat (48 + n) else Char.ofNat (87 + n)

/-- `hexdigest()`: the 32-character lowercase hex form of the digest. -/
def md5Hex (m : List Nat) : String :=
  String.mk (((md5Bytes m).map (fun b => [hexChar (b / 16), hexChar (b % 16)])).flatten)

/-! ## Data model

`FileInfo` mirrors the scanner dataclass (the never-assigned photo metadata
fields are omitted).  POSIX timestamps are exact rationals; `size` is
`stat().st_size`.  A file system is a partial map from paths to entries; an
entry's `content` is `none` when opening/reading the file raises, while the
path mapping to `none` means `stat`/`exists` fails. -/

/-- Security / scanning / cleaning configuration fields used by the pipeline
(`Config.security`, `Config.scanning`, `Config.cleaning`). -/
structure Config where
  whitelist_paths : List String
  blacklist_paths : List String
  exclude_patterns : List String
  min_file_age_hours : Int
deriving Repr, DecidableEq

/-- One file of the modelled file system. -/
structure FsEntry where
  size : Nat
  mtime : Int
  content : Option (List Nat)
deriving Repr, DecidableEq

/-- The file system: `none` means the path does not exist (or `stat` raises). -/
def Fs : Type := String → Option FsEntry

/-- `FileInfo` from `system_scanner.py` (photo_metadata and
compression_potential are never assigned anywhere and are omitted). -/
structure FileInfo where
  path : String
  size : Nat
  modified : Int
  file_type : String
  category : String
  safe_to_delete : Bool
  risk_level : String
  hash : Option String := none
  duplicate_group : Option String := none
deriving Repr, DecidableEq

/-- `DuplicateGroup` from `system_scanner.py`. -/
structure DuplicateGroup where
  hash : String
  files : List FileInfo
  total_size : Nat
  potential_savings : Int
  file_type : String
deriving Repr, DecidableEq

/-- `PhotoAnalysis` from `system_scanner.py`; the float compression ratios
0.8 / 0.6 / 0.5 / 0.7 and quality scores are modelled exactly in tenths
(`resolution` is always `None` and `duplicate_of` never assigned; omitted). -/
structure PhotoAnalysis where
  path : String
  size : Nat
  format : String
  compression_ratio10 : Nat
  quality_score10 : Nat
deriving Repr, DecidableEq

namespace SystemScanner

/-- `self.photo_extensions`. -/
def photo_extensions : List String :=
  [".jpg", ".jpeg", ".png", ".gif", ".bmp", ".tiff", ".webp", ".heic", ".heif"]

/-- `SystemScanner._get_file_type`: extension-table file typing. -/
def get_file_type (path : String) : String :=
  let extension := strLower (pathSuffix path)
  if extension ∈ [".log", ".log.1", ".log.2"] then "log"
  else if extension ∈ [".cache", ".tmp", ".temp"] then "cache"
  else if extension ∈ [".jpg", ".jpeg", ".png", ".gif", ".bmp"] then "image"
  else if extension ∈ [".mp4", ".avi", ".mov", ".mkv"] then "video"
  else if extension ∈ [".mp3", ".wav", ".flac"] then "audio"
  else if extension ∈ [".zip", ".rar", ".7z", ".tar", ".gz"] then "archive"
  else "other"

/-- `SystemScanner._is_safe_to_delete`: whitelist substring, then blacklist
substring, then exclude glob, then the system_cache depth rule. -/
def is_safe_to_delete (conf : Config) (path : String) (category : String) :
    Bool :=
  if conf.whitelist_paths.any (fun w => strContains path w) then false
  else if conf.blacklist_paths.any (fun b => strContains path b) then false
  else if conf.exclude_patterns.any (fun pat => pathMatch pat path) then false
  else if category = "system_cache" then decide (countSlashes path > 2)
  else true

/-- High-risk substring table of `SystemScanner._get_risk_level`. -/
def high_risk_patterns : List String :=
  ["system", "library", "bin", "sbin", "usr/bin", "usr/sbin",
   "windows", "system32", "syswow64", "program files"]

/-- Medium-risk substring table of `SystemScanner._get_risk_level`. -/
def medium_risk_patterns : List String :=
  ["application support", "preferences", "settings",
   "appdata", "local", "roaming"]

/-- `SystemScanner._get_risk_level`. -/
def get_risk_level (path : String) (_category : String) : String :=
  let lower := strLower path
  if high_risk_patterns.any (fun p => strContains lower p) then "high"
  else if medium_risk_patterns.any (fun p => strContains lower p) then "medium"
  else "low"

/-- `SystemScanner._is_path_excluded`: plain substring test of the exclude
patterns against the path. -/
def is_path_excluded (conf : Config) (path : String) : Bool :=
  conf.exclude_patterns.any (fun pat => strContains path pat)

/-- `SystemScanner._get_file_info`: stat, minimum-age gate, zero-size gate,
classification, safety policy, risk scoring.  Returns `none` when the stat
fails, the file is younger than `min_file_age_hours`, or it is empty. -/
def get_file_info (conf : Config) (now : Int) (fs : Fs) (path : String)
    (category : String) : Option FileInfo :=
  match fs path with
  | none => none
  | some e =>
    -- the source tests `(now - mtime) / 3600 < min_file_age_hours` in real
    -- (float) division; over the integers this is `now - mtime < min * 3600`
    if now - e.mtime < conf.min_file_age_hours * 3600 then none
    else if e.size = 0 then none
    else some
      { path := path
        size := e.size
        modified := e.mtime
        file_type := get_file_type path
        category := category
        safe_to_delete := is_safe_to_delete conf path category
        risk_level := get_risk_level path category }

/-- `SystemScanner._get_enhanced_file_info`: stat and classify with **no**
age or size gate. -/
def get_enhanced_file_info (conf : Config) (_now : Int) (fs : Fs) (path : String)
    (category : String) : Option FileInfo :=
  match fs path with
  | none => none
  | some e => some
      { path := path
        size := e.size
        modified := e.mtime
        file_type := get_file_type path
        category := category
        safe_to_delete := is_safe_to_delete conf path category
        risk_level := get_risk_level path category }

/-- `SystemScanner._scan_directory` restricted to its per-file pipeline:
`walk` is the stream of regular-file paths the depth-bounded `rglob`
traversal yields under `root`.  Applies the root exclusion check, the
optional file-pattern filter, and `_get_file_info`. -/
def scan_directory (conf : Config) (now : Int) (fs : Fs) (root : String)
    (walk : List String) (category : String)
    (file_patterns : Option (List String)) : List FileInfo :=
  if is_path_excluded conf root then []
  else
    walk.filterMap (fun p =>
      match file_patterns with
      | some pats =>
          if pats.any (fun pat => pathMatch pat p) then
            get_file_info conf now fs p category
          else none
      | none => get_file_info conf now fs p category)

/-- `SystemScanner._scan_directory_for_duplicates` per-file pipeline: enhanced
info, keep only files over 1 KiB. -/
def scan_directory_for_duplicates (conf : Config) (now : Int) (fs : Fs)
    (walk : List String) : List FileInfo :=
  walk.filterMap (fun p =>
    (get_enhanced_file_info conf now fs p "potential_duplicate").bind
      (fun fi => if fi.size > 1024 then some fi else none))

/-- `SystemScanner._scan_directory_for_photos` per-file pipeline: extension
filter, then enhanced info (no size or age gate). -/
def scan_directory_for_photos (conf : Config) (now : Int) (fs : Fs)
    (walk : List String) : List FileInfo :=
  walk.filterMap (fun p =>
    if strLower (pathSuffix p) ∈ photo_extensions then
      get_enhanced_file_info conf now fs p "photo"
    else none)

/-- `SystemScanner._scan_directory_for_large_files` per-file pipeline:
`os.stat` threshold over 10 MiB, then enhanced info. -/
def scan_directory_for_large_files (conf : Config) (now : Int) (fs : Fs)
    (walk : List String) : List FileInfo :=
  walk.filterMap (fun p =>
    match fs p with
    | none => none
    | some e =>
        if e.size > 10 * 1024 * 1024 then
          get_enhanced_file_info conf now fs p "large_file"
        else none)

/-- `SystemScanner._scan_directory_for_old_files` per-file pipeline: mtime
older than the cutoff, then enhanced info (no size gate). -/
def scan_directory_for_old_files (conf : Config) (now : Int) (fs : Fs)
    (cutoff : Int) (walk : List String) : List FileInfo :=
  walk.filterMap (fun p =>
    match fs p with
    | none => none
    | some e =>
        if e.mtime < cutoff then
          get_enhanced_file_info conf now fs p "old_file"
        else none)

/-- `SystemScanner._calculate_file_hash`: stream the file in 4096-byte chunks
into an MD5 object; any read failure yields the empty string instead of
propagating. -/
def calculate_file_hash (fs : Fs) (path : String) : String :=
  match fs path with
  | none => ""
  | some e =>
    match e.content with
    | none => ""
    | some c => md5Hex ((readChunks 4096 c).foldl (fun acc ch => acc ++ ch) [])

/-! ### `_analyze_duplicates`

Size-bucketing, per-bucket hashing, hash-grouping, group creation, and the
in-place marking of non-first group members.  Python mutates the shared
`FileInfo` objects; we model this as a rewrite of the scanned list followed by
group construction over the rewritten records (each record belongs to at most
one hash group, so the two orders agree). -/

/-- A record gets a content hash iff it is over 1 KiB and its size bucket has
more than one such member. -/
def in_hashed_bucket (files : List FileInfo) (f : FileInfo) : Bool :=
  decide (1024 < f.size) &&
    files.countP (fun g => decide (1024 < g.size ∧ g.size = f.size)) > 1

/-- Phase 1-2 of `_analyze_duplicates`: compute MD5 hashes for all members of
multi-member size buckets (read failures store the empty string). -/
def set_hashes (fs : Fs) (files : List FileInfo) : List FileInfo :=
  files.map (fun f =>
    if in_hashed_bucket files f then
      { f with hash := some (calculate_file_hash fs f.path) }
    else f)

/-- Python truthiness of the `hash` field: `None` and `""` are falsy. -/
def truthyHash (f : FileInfo) : Option String :=
  match f.hash with
  | none => none
  | some s => if s = "" then none else some s

/-- How many records carry exactly this (truthy) hash. -/
def countHash (files : List FileInfo) (h : String) : Nat :=
  files.countP (fun f => f.hash == some h)

/-- Phase 4 marking of a single record at position `i` of the scanned list:
a member of a multi-member hash group gets `duplicate_group`; if it is not
the first member of its group it additionally gets `safe_to_delete = True`
and `risk_level = "low"`. -/
def mark_one (hashed : List FileInfo) (i : Nat) (f : FileInfo) : FileInfo :=
  match truthyHash f with
  | none => f
  | some h =>
      if countHash hashed h > 1 then
        if (hashed.take i).countP (fun g => g.hash == some h) > 0 then
          { f with duplicate_group := some h, safe_to_delete := true,
                   risk_level := "low" }
        else { f with duplicate_group := some h }
      else f

/-- Apply `mark_one` along the list, threading the position. -/
def mark_from (hashed : List FileInfo) : Nat → List FileInfo → List FileInfo
  | _, [] => []
  | i, f :: t => mark_one hashed i f :: mark_from hashed (i + 1) t

/-- Phase 4 of `_analyze_duplicates`: mark every record at its position. -/
def mark_duplicates (hashed : List FileInfo) : List FileInfo :=
  mark_from hashed 0 hashed

/-- The duplicate marking fired at position `i`: the record there carries a
truthy hash shared by at least two records, and is not the first record with
that hash (so `_analyze_duplicates` set its `safe_to_delete` to `True`). -/
def dup_marked (hashed : List FileInfo) (i : Nat) : Bool :=
  match hashed.get? i with
  | none => false
  | some f =>
    match truthyHash f with
    | none => false
    | some h =>
        decide (countHash hashed h > 1) &&
          decide ((hashed.take i).countP (fun g => g.hash == some h) > 0)

/-- Distinct truthy hashes in first-occurrence order (insertion order of the
Python `defaultdict`). -/
def first_dedup (l : List String) : List String :=
  l.foldl (fun acc x => if x ∈ acc then acc else acc ++ [x]) []

/-- `min(f.size for f in files)` over a nonempty list (0 for `[]`). -/
def min_size (files : List FileInfo) : Nat :=
  match files with
  | [] => 0
  | f :: t => t.foldl (fun m g => Nat.min m g.size) f.size

/-- `files[0].file_type` ("" for `[]`, unreachable for real groups). -/
def head_file_type (files : List FileInfo) : String :=
  match files with
  | [] => ""
  | f :: _ => f.file_type

/-- Group construction of `_analyze_duplicates`: one `DuplicateGroup` per
truthy hash with at least two records; `potential_savings` is the total size
minus the smallest member size. -/
def make_duplicate_groups (final : List FileInfo) : List DuplicateGroup :=
  (first_dedup (final.filterMap truthyHash)).filterMap (fun h =>
    let mem := final.filter (fun f => f.hash == some h)
    if mem.length > 1 then
      some
        { hash := h
          files := mem
          total_size := (mem.map (fun f => f.size)).sum
          potential_savings :=
            ((mem.map (fun f => f.size)).sum : Int) - min_size mem
          file_type := head_file_type mem }
    else none)

/-- `SystemScanner._analyze_duplicates`: returns the rewritten scanned list
and the duplicate groups. -/
def analyze_duplicates (fs : Fs) (files : List FileInfo) :
    List FileInfo × List DuplicateGroup :=
  let final := mark_duplicates (set_hashes fs files)
  (final, make_duplicate_groups final)

/-! ### `_analyze_photos` and `_calculate_enhanced_scan_results` -/

/-- `SystemScanner._analyze_single_photo` (ratios and quality scores are the
source's float literals, held exactly in tenths). -/
def analyze_single_photo (f : FileInfo) : PhotoAnalysis :=
  let ext := strLower (pathSuffix f.path)
  let ratio10 :=
    if ext ∈ [".jpg", ".jpeg"] then 8
    else if ext = ".png" then 6
    else if ext = ".gif" then 5
    else 7
  let quality10 :=
    if ext ∈ [".jpg", ".jpeg"] then 7
    else if ext = ".png" then 9
    else if ext = ".gif" then 6
    else 8
  { path := f.path, size := f.size, format := ext,
    compression_ratio10 := ratio10, quality_score10 := quality10 }

/-- `SystemScanner._analyze_photos`: one analysis per record in category
`photo`. -/
def analyze_photos (files : List FileInfo) : List PhotoAnalysis :=
  files.filterMap (fun f =>
    if f.category = "photo" then some (analyze_single_photo f) else none)

/-- `int(photo.size * (1 - photo.compression_ratio))` with the ratio in
tenths: floor of `size * (10 - ratio10) / 10`. -/
def photo_savings_of (p : PhotoAnalysis) : Nat :=
  p.size * (10 - p.compression_ratio10) / 10

/-- The fields of the `_calculate_enhanced_scan_results` dictionary that the
claims mention (the category/detail sub-dictionaries are presentation only). -/
structure EnhancedScanResults where
  success : Bool
  scan_duration : ℚ
  total_files : Nat
  total_size : Nat
  potential_savings : Int
  duplicates_groups : Nat
  duplicates_potential_savings : Int
  photos_count : Nat
  photos_potential_savings : Nat
  errors : List String
deriving Repr, DecidableEq

/-- `SystemScanner._calculate_enhanced_scan_results`: cache savings count
every record whose category contains `"cache"`, duplicate savings sum the
groups, photo savings sum the per-photo estimates. -/
def calculate_enhanced_scan_results (files : List FileInfo)
    (groups : List DuplicateGroup) (photos : List PhotoAnalysis)
    (errors : List String) (scan_duration : ℚ) : EnhancedScanResults :=
  let cache_savings :=
    ((files.filter (fun f => strContains f.category "cache")).map
      (fun f => f.size)).sum
  let duplicate_savings := (groups.map (fun g => g.potential_savings)).sum
  let photo_savings := (photos.map photo_savings_of).sum
  { success := true
    scan_duration := scan_duration
    total_files := files.length
    total_size := (files.map (fun f => f.size)).sum
    potential_savings :=
      (cache_savings : Int) + duplicate_savings + (photo_savings : Int)
    duplicates_groups := groups.length
    duplicates_potential_savings := duplicate_savings
    photos_count := photos.length
    photos_potential_savings := photo_savings
    errors := errors }

end SystemScanner

namespace HashUtils

/-- `HashUtils.calculate_file_hash` with the default `md5` algorithm and
8192-byte chunks; returns `None` when the read raises. -/
def calculate_file_hash (fs : Fs) (path : String) : Option String :=
  match fs path with
  | none => none
  | some e =>
    match e.content with
    | none => none
    | some c =>
        some (md5Hex ((readChunks 8192 c).foldl (fun acc ch => acc ++ ch) []))

end HashUtils

namespace FileUtils

/-- `FileUtils.is_safe_to_delete`: case-insensitive blacklist substring veto,
then case-insensitive whitelist substring allow, else allowed only when the
whitelist is empty. -/
def is_safe_to_delete (path : String) (whitelist blacklist : List String) :
    Bool :=
  if containsAnyLower blacklist path then false
  else if containsAnyLower whitelist path then true
  else whitelist.isEmpty

end FileUtils

/-! ## Cleaner (`cache_cleaner.py`)

The three category sub-cleaners are placeholders returning zero counts and
touching nothing; `clean_system` sums them.  Filesystem side effects of a
cleanup call reduce to backup-directory creation, so the mutable state is the
set of existing directories. -/

/-- `CleanResult` from `cache_cleaner.py` / `engine.py`. -/
structure CleanResult where
  files_cleaned : Nat
  space_freed : Nat
  clean_duration : ℚ
  clean_errors : List String
  backup_created : Bool
  backup_path : Option String
deriving Repr, DecidableEq

/-- Directory-set state touched by a cleanup call. -/
abbrev CleanFsState : Type := List String

namespace CacheCleaner

/-- `CacheCleaner._clean_caches` placeholder result. -/
def clean_caches (_safe_mode : Bool) (_backup_path : Option String) :
    CleanResult :=
  { files_cleaned := 0, space_freed := 0, clean_duration := 0,
    clean_errors := [], backup_created := false, backup_path := none }

/-- `CacheCleaner._clean_logs` placeholder result. -/
def clean_logs (_safe_mode : Bool) (_backup_path : Option String) :
    CleanResult :=
  { files_cleaned := 0, space_freed := 0, clean_duration := 0,
    clean_errors := [], backup_created := false, backup_path := none }

/-- `CacheCleaner._clean_temp_files` placeholder result. -/
def clean_temp_files (_safe_mode : Bool) (_backup_path : Option String) :
    CleanResult :=
  { files_cleaned := 0, space_freed := 0, clean_duration := 0,
    clean_errors := [], backup_created := false, backup_path := none }

/-- `clean_options.get(key, False)` over the options dictionary. -/
def opt_get (opts : List (String × Bool)) (key : String) : Bool :=
  match opts.find? (fun kv => kv.1 == key) with
  | some kv => kv.2
  | none => false

/-- A disabled category contributes nothing to the accumulators. -/
def zero_clean : CleanResult :=
  { files_cleaned := 0, space_freed := 0, clean_duration := 0,
    clean_errors := [], backup_created := false, backup_path := none }

/-- `CacheCleaner.clean_system`: run the enabled sub-cleaners, sum their
counts, and report whether a backup path was supplied.  No sub-cleaner
touches the filesystem, so the state is returned unchanged. -/
def clean_system (opts : List (String × Bool)) (safe_mode : Bool)
    (backup_path : Option String) (st : CleanFsState) :
    CleanResult × CleanFsState :=
  let r1 := if opt_get opts "caches" then clean_caches safe_mode backup_path
            else zero_clean
  let r2 := if opt_get opts "logs" then clean_logs safe_mode backup_path
            else zero_clean
  let r3 := if opt_get opts "temp_files" then
              clean_temp_files safe_mode backup_path
            else zero_clean
  ({ files_cleaned := r1.files_cleaned + r2.files_cleaned + r3.files_cleaned
     space_freed := r1.space_freed + r2.space_freed + r3.space_freed
     clean_duration := 0
     clean_errors := r1.clean_errors ++ r2.clean_errors ++ r3.clean_errors
     backup_created := backup_path.isSome
     backup_path := backup_path }, st)

/-- `CacheCleaner.create_backup`: `mkdir(parents=True, exist_ok=True)` on the
backup directory. -/
def create_backup (dir : String) (st : CleanFsState) :
    CleanFsState × String :=
  (if dir ∈ st then st else st ++ [dir], dir)

end CacheCleaner

/-! ## Engine (`engine.py`) -/

/-- The `ScanResult` fields the claims touch (`engine.py` dataclass). -/
structure ScanResult where
  total_files_scanned : Nat
  potential_space_savings : Int
  scan_duration : ℚ
  scan_errors : List String
deriving Repr, DecidableEq

namespace PurrifyEngine

/-- `PurrifyEngine._validate_scan_parameters`: `ValueError` when both scan
modes are requested. -/
def validate_scan_parameters (quick_mode detailed_mode : Bool) :
    Except String Unit :=
  if quick_mode && detailed_mode then
    Except.error "Cannot enable both quick_mode and detailed_mode"
  else Except.ok ()

/-- `PurrifyEngine._create_scan_result_from_data` restricted to the modelled
fields. -/
def create_scan_result_from_data (sd : SystemScanner.EnhancedScanResults)
    (d : ℚ) : ScanResult :=
  { total_files_scanned := sd.total_files
    potential_space_savings := sd.potential_savings
    scan_duration := d
    scan_errors := sd.errors }

/-- `PurrifyEngine._create_error_scan_result`. -/
def create_error_scan_result (e : String) (d : ℚ) : ScanResult :=
  { total_files_scanned := 0, potential_space_savings := 0,
    scan_duration := d, scan_errors := [e] }

/-- `PurrifyEngine.scan_system` as the caller sees it: the body's
`try/except` turns every raised error into a normally returned error result,
so the `Except` layer is always `ok`.  The second component records whether
`self.scanner.scan_system` (the traversal) was invoked.  The scanner's output
is the `sd` parameter. -/
def scan_system (quick_mode detailed_mode : Bool)
    (sd : SystemScanner.EnhancedScanResults) (d : ℚ) :
    Except String ScanResult × Bool :=
  match validate_scan_parameters quick_mode detailed_mode with
  | Except.error e => (Except.ok (create_error_scan_result e d), false)
  | Except.ok _ => (Except.ok (create_scan_result_from_data sd d), true)

/-- `PurrifyEngine._validate_clean_parameters`: `ValueError` on an empty
options dictionary. -/
def validate_clean_parameters (opts : List (String × Bool)) :
    Except String Unit :=
  if opts.isEmpty then Except.error "Clean options cannot be empty"
  else Except.ok ()

/-- `PurrifyEngine._create_error_clean_result`. -/
def create_error_clean_result (e : String) : CleanResult :=
  { files_cleaned := 0, space_freed := 0, clean_duration := 0,
    clean_errors := [e], backup_created := false, backup_path := none }

/-- `PurrifyEngine.clean_system`: validate, create the backup directory only
when `create_backup` is set and safe mode is off, then delegate to the cache
cleaner; every raised error is caught and returned as an error result. -/
def clean_system (opts : List (String × Bool)) (safe_mode create_backup : Bool)
    (st : CleanFsState) : CleanResult × CleanFsState :=
  match validate_clean_parameters opts with
  | Except.error e => (create_error_clean_result e, st)
  | Except.ok _ =>
    let stBackup :=
      if create_backup && !safe_mode then
        let pr := CacheCleaner.create_backup "backups" st
        (pr.1, some pr.2)
      else (st, none)
    CacheCleaner.clean_system opts safe_mode stBackup.2 stBackup.1

end PurrifyEngine

/-! ## Derived component definitions used by the theorems -/

/-- The group member the marking phase leaves unmarked: `files[0]`. -/
def retained_size (g : DuplicateGroup) : Nat :=
  match g.files with
  | [] => 0
  | f :: _ => f.size

/-- Bytes of all records whose category contains `"cache"` (the cache term of
the aggregator, which ignores `safe_to_delete` and the temp/log categories). -/
def cache_bytes (files : List FileInfo) : Nat :=
  ((files.filter (fun f => strContains f.category "cache")).map
    (fun f => f.size)).sum

/-- Sum of the duplicate groups' `potential_savings`. -/
def dup_savings_total (groups : List DuplicateGroup) : Int :=
  (groups.map (fun g => g.potential_savings)).sum

/-- Sum of the per-photo compression estimates. -/
def photo_savings_total (photos : List PhotoAnalysis) : Nat :=
  (photos.map SystemScanner.photo_savings_of).sum

/-- The spec's potential-savings formula, written from the spec's words for
comparison with `calculate_enhanced_scan_results`: bytes of records in cache,
temp and log categories that are marked `safe_to_delete`, plus duplicate
savings, plus the photo compression estimate. -/
def spec_potential_savings (files : List FileInfo)
    (groups : List DuplicateGroup) (photos : List PhotoAnalysis) : Int :=
  (((files.filter (fun f =>
      (strContains f.category "cache" || f.category == "temp" ||
        f.category == "log") && f.safe_to_delete)).map
        (fun f => f.size)).sum : Int)
    + dup_savings_total groups + (photo_savings_total photos : Int)

/-! ## Concrete fixtures for counterexamples and witnesses -/

/-- Blacklist `"secret"`, no whitelist, no exclusions, no age floor. -/
def confA : Config :=
  { whitelist_paths := [], blacklist_paths := ["secret"],
    exclude_patterns := [], min_file_age_hours := 0 }

/-- 1025 zero bytes: over the scanner's 1 KiB duplicate threshold. -/
def contentA : List Nat := List.replicate 1025 0

/-- Two identical 1025-byte files, the second under a blacklisted directory. -/
def fsA : Fs := fun p =>
  if p = "/d/a.bin" ∨ p = "/d/secret/a.bin" then
    some { size := 1025, mtime := 0, content := some contentA }
  else none

/-- The duplicate-pass records over `fsA` (the blacklisted one starts with
`safe_to_delete = false`). -/
def recsA : List FileInfo :=
  SystemScanner.scan_directory_for_duplicates confA 0 fsA
    ["/d/a.bin", "/d/secret/a.bin"]

/-- The blacklisted record as `_analyze_duplicates` leaves it: marked safe. -/
def recSecretMarked : FileInfo :=
  { path := "/d/secret/a.bin", size := 1025, modified := 0,
    file_type := "other", category := "potential_duplicate",
    safe_to_delete := true, risk_level := "low",
    hash := some "0ad4cf7b35f62b8ff9c73f481594fbdd",
    duplicate_group := some "0ad4cf7b35f62b8ff9c73f481594fbdd" }

/-- The first (retained) record of the duplicate group over `fsA`. -/
def recKeepA : FileInfo :=
  { path := "/d/a.bin", size := 1025, modified := 0,
    file_type := "other", category := "potential_duplicate",
    safe_to_delete := true, risk_level := "high",
    hash := some "0ad4cf7b35f62b8ff9c73f481594fbdd",
    duplicate_group := some "0ad4cf7b35f62b8ff9c73f481594fbdd" }

/-- The duplicate group `_analyze_duplicates` builds over `fsA`. -/
def groupA : DuplicateGroup :=
  { hash := "0ad4cf7b35f62b8ff9c73f481594fbdd",
    files := [recKeepA, recSecretMarked],
    total_size := 2050, potential_savings := 1025, file_type := "other" }

/-- Empty safety lists, 24-hour minimum age. -/
def confB : Config :=
  { whitelist_paths := [], blacklist_paths := [],
    exclude_patterns := [], min_file_age_hours := 24 }

/-- One brand-new 500-byte photo (mtime equals scan time). -/
def fsB : Fs := fun p =>
  if p = "/home/u/Pictures/new.jpg" then
    some { size := 500, mtime := 0, content := some [] }
  else none

/-- One zero-byte photo. -/
def fsC : Fs := fun p =>
  if p = "/h/Pictures/z.jpg" then some { size := 0, mtime := 0, content := some [] }
  else none

/-- Three files for the pass-threshold witnesses: a small old temp file, an
over-1-KiB unreadable file, and an over-10-MiB unreadable file (`stat`
succeeds, `open` would raise). -/
def fsW : Fs := fun p =>
  if p = "/r/x.dat" then some { size := 5, mtime := 0, content := some [1, 2, 3, 4, 5] }
  else if p = "/r/d.dat" then some { size := 1025, mtime := 0, content := none }
  else if p = "/r/L.dat" then some { size := 10485761, mtime := 0, content := none }
  else none

/-- The basic-pass record over `fsW` at scan time 360000 s (100 h old). -/
def recW1 : FileInfo :=
  { path := "/r/x.dat", size := 5, modified := 0, file_type := "other",
    category := "temp", safe_to_delete := true, risk_level := "low" }

/-- The duplicate-pass record over `fsW`. -/
def recW2 : FileInfo :=
  { path := "/r/d.dat", size := 1025, modified := 0, file_type := "other",
    category := "potential_duplicate", safe_to_delete := true,
    risk_level := "low" }

/-- The large-file-pass record over `fsW`. -/
def recW3 : FileInfo :=
  { path := "/r/L.dat", size := 10485761, modified := 0, file_type := "other",
    category := "large_file", safe_to_delete := true, risk_level := "low" }

/-- A scanner output value for exercising the engine wrapper. -/
def sdDummy : SystemScanner.EnhancedScanResults :=
  { success := true, scan_duration := 0, total_files := 0, total_size := 0,
    potential_savings := 0, duplicates_groups := 0,
    duplicates_potential_savings := 0, photos_count := 0,
    photos_potential_savings := 0, errors := [] }

/-- One safe temp record of 100 bytes (counts for the spec's savings formula,
not for the aggregator's). -/
def filesC6 : List FileInfo :=
  [{ path := "/tmp/t.dat", size := 100, modified := 0, file_type := "other",
     category := "temp", safe_to_delete := true, risk_level := "low" }]

/-- A three-byte readable file for the hashing witness. -/
def fsH : Fs := fun p =>
  if p = "/f" then some { size := 3, mtime := 0, content := some [1, 2, 3] }
  else none

/-! ## Helper lemmas -/

theorem chunksGo_flatten {α : Type} (n : Nat) (hn : 1 ≤ n) :
    ∀ (l acc : List α) (k : Nat), 1 ≤ k →
      (chunksGo n l acc k).flatten = acc.reverse ++ l := by
  intro l
  induction l with
  | nil => intro acc k _; cases acc <;> simp [chunksGo]
  | cons a t ih =>
      intro acc k _
      by_cases h : k ≤ 1
      · simp only [chunksGo, if_pos h, List.flatten_cons, ih [] n hn]
        simp
      · simp only [chunksGo, if_neg h]
        rw [ih (a :: acc) (k - 1) (by omega)]
        simp

theorem readChunks_flatten {α : Type} (n : Nat) (hn : 0 < n) (l : List α) :
    (readChunks n l).flatten = l := by
  unfold readChunks
  rw [if_neg (by omega), chunksGo_flatten n hn l [] n hn]
  simp

theorem foldl_append_flatten {α : Type} :
    ∀ (ls : List (List α)) (acc : List α),
      ls.foldl (fun a b => a ++ b) acc = acc ++ ls.flatten := by
  intro ls
  induction ls with
  | nil => simp
  | cons x t ih => intro acc; simp [ih, List.append_assoc]

/-- Streaming a content through chunked reads reconstructs the content. -/
theorem stream_chunks_id (n : Nat) (hn : 0 < n) (c : List Nat) :
    (readChunks n c).foldl (fun acc ch => acc ++ ch) [] = c := by
  rw [foldl_append_flatten, readChunks_flatten n hn]
  simp

/-- Inverting `_get_file_info`: a produced record comes from a stat entry that
passed the age gate and the zero-size gate, and carries the policy verdict. -/
theorem get_file_info_some (conf : Config) (now : Int) (fs : Fs) (path : String)
    (category : String) (f : FileInfo)
    (h : SystemScanner.get_file_info conf now fs path category = some f) :
    ∃ e, fs path = some e ∧ f.path = path ∧ f.size = e.size ∧
      f.modified = e.mtime ∧
      ¬(now - e.mtime < conf.min_file_age_hours * 3600) ∧ e.size ≠ 0 ∧
      f.category = category ∧ f.hash = none ∧
      f.safe_to_delete = SystemScanner.is_safe_to_delete conf path category := by
  unfold SystemScanner.get_file_info at h
  cases hfs : fs path with
  | none => rw [hfs] at h; cases h
  | some e =>
    rw [hfs] at h
    simp only at h
    by_cases hage : now - e.mtime < conf.min_file_age_hours * 3600
    · rw [if_pos hage] at h; cases h
    · rw [if_neg hage] at h
      by_cases hsz : e.size = 0
      · rw [if_pos hsz] at h; cases h
      · rw [if_neg hsz] at h
        cases h
        exact ⟨e, rfl, rfl, rfl, rfl, hage, hsz, rfl, rfl, rfl⟩

/-- Inverting `_get_enhanced_file_info`: no age or size gate, just the stat
entry and the policy verdict. -/
theorem get_enhanced_file_info_some (conf : Config) (now : Int) (fs : Fs)
    (path : String) (category : String) (f : FileInfo)
    (h : SystemScanner.get_enhanced_file_info conf now fs path category =
      some f) :
    ∃ e, fs path = some e ∧ f.path = path ∧ f.size = e.size ∧
      f.modified = e.mtime ∧ f.category = category ∧ f.hash = none ∧
      f.safe_to_delete = SystemScanner.is_safe_to_delete conf path category := by
  unfold SystemScanner.get_enhanced_file_info at h
  cases hfs : fs path with
  | none => rw [hfs] at h; cases h
  | some e =>
    rw [hfs] at h
    simp only at h
    cases h
    exact ⟨e, rfl, rfl, rfl, rfl, rfl, rfl, rfl⟩

/-! ## Claim theorems -/

/-- **C8**: for every file content, the 4096-byte-chunk streaming MD5 of
`SystemScanner._calculate_file_hash` and the 8192-byte-chunk streaming MD5 of
`HashUtils.calculate_file_hash` both equal the one-pass MD5 hex digest of the
whole content. -/
theorem c8_streaming_md5_agreement (fs : Fs) (path : String) (e : FsEntry)
    (c : List Nat) (hfs : fs path = some e) (hc : e.content = some c) :
    SystemScanner.calculate_file_hash fs path = md5Hex c ∧
    HashUtils.calculate_file_hash fs path = some (md5Hex c) := by
  constructor
  · unfold SystemScanner.calculate_file_hash
    rw [hfs]
    simp only [hc, stream_chunks_id 4096 (by norm_num)]
  · unfold HashUtils.calculate_file_hash
    rw [hfs]
    simp only [hc, stream_chunks_id 8192 (by norm_num)]

/-- Witness for C8: a concrete three-byte file hashed through both paths. -/
theorem c8_witness :
    SystemScanner.calculate_file_hash fsH "/f" = md5Hex [1, 2, 3] ∧
    HashUtils.calculate_file_hash fsH "/f" = some (md5Hex [1, 2, 3]) :=
  c8_streaming_md5_agreement fsH "/f"
    { size := 3, mtime := 0, content := some [1, 2, 3] } [1, 2, 3] rfl rfl

/-- **C9**: `FileUtils.is_safe_to_delete` vetoes any case-insensitive
blacklist substring hit regardless of the whitelist; otherwise it allows
exactly when some whitelist entry matches case-insensitively or the
whitelist is empty. -/
theorem c9_fileutils_safe_to_delete (path : String) (wl bl : List String) :
    (containsAnyLower bl path = true →
      FileUtils.is_safe_to_delete path wl bl = false) ∧
    (containsAnyLower bl path = false →
      (FileUtils.is_safe_to_delete path wl bl = true ↔
        (containsAnyLower wl path = true ∨ wl = []))) := by
  unfold FileUtils.is_safe_to_delete
  constructor
  · intro h; rw [if_pos h]
  · intro h
    rw [if_neg (by simp [h])]
    by_cases h2 : containsAnyLower wl path = true
    · simp [h2]
    · rw [if_neg (by simp [h2])]
      simp [h2, List.isEmpty_iff]

/-- Witness for C9: a blacklisted path is vetoed; with no blacklist the
whitelist acts as an allow-list. -/
theorem c9_witness :
    FileUtils.is_safe_to_delete "/Library/Caches/x" ["q"] ["library"] = false ∧
    (FileUtils.is_safe_to_delete "/home/u/f" ["home"] [] = true ↔
      (containsAnyLower ["home"] "/home/u/f" = true ∨
        (["home"] : List String) = [])) :=
  ⟨(c9_fileutils_safe_to_delete "/Library/Caches/x" ["q"] ["library"]).1
      (by decide),
   (c9_fileutils_safe_to_delete "/home/u/f" ["home"] []).2 (by decide)⟩

/-- **C5** counterexample: with both scan modes requested, the engine call
returns normally (an `ok` error-result with the message inside), so no
validation error reaches the caller. -/
theorem c5_counterexample :
    (PurrifyEngine.scan_system true true sdDummy 0).1 =
      Except.ok (PurrifyEngine.create_error_scan_result
        "Cannot enable both quick_mode and detailed_mode" 0) ∧
    (PurrifyEngine.scan_system true true sdDummy 0).2 = false :=
  ⟨rfl, rfl⟩

/-- **C5** amended: requesting both modes is detected before any traversal
(the scanner is never invoked), but the engine catches the `ValueError` and
returns an error `ScanResult` instead of raising to the caller. -/
theorem c5_amended (quick detailed : Bool)
    (sd : SystemScanner.EnhancedScanResults) (d : ℚ)
    (hq : quick = true) (hd : detailed = true) :
    (PurrifyEngine.scan_system quick detailed sd d).1 =
      Except.ok (PurrifyEngine.create_error_scan_result
        "Cannot enable both quick_mode and detailed_mode" d) ∧
    (PurrifyEngine.scan_system quick detailed sd d).2 = false := by
  subst hq; subst hd; exact ⟨rfl, rfl⟩

/-- Witness for C5 amended at a concrete engine call. -/
theorem c5_amended_witness :
    (PurrifyEngine.scan_system true true sdDummy 0).1 =
      Except.ok (PurrifyEngine.create_error_scan_result
        "Cannot enable both quick_mode and detailed_mode" 0) ∧
    (PurrifyEngine.scan_system true true sdDummy 0).2 = false :=
  c5_amended true true sdDummy 0 rfl rfl

/-- **C3**: a `safe_mode=true` cleanup leaves the filesystem state unchanged,
cleans zero files, frees zero bytes, creates no backup, and (when the
options are non-empty, i.e. validation passes) reports no errors. -/
theorem c3_safe_mode_no_mutation (opts : List (String × Bool))
    (create_backup : Bool) (st : CleanFsState) :
    (PurrifyEngine.clean_system opts true create_backup st).2 = st ∧
    (PurrifyEngine.clean_system opts true create_backup st).1.files_cleaned = 0 ∧
    (PurrifyEngine.clean_system opts true create_backup st).1.space_freed = 0 ∧
    (PurrifyEngine.clean_system opts true create_backup st).1.backup_created = false ∧
    (PurrifyEngine.clean_system opts true create_backup st).1.backup_path = none ∧
    (opts.isEmpty = false →
      (PurrifyEngine.clean_system opts true create_backup st).1.clean_errors = []) := by
  unfold PurrifyEngine.clean_system PurrifyEngine.validate_clean_parameters
  by_cases h : opts.isEmpty
  · simp [h, PurrifyEngine.create_error_clean_result]
  · simp only [h, Bool.false_eq_true, if_false, Bool.not_true, Bool.and_false]
    simp [CacheCleaner.clean_system]
    constructor
    · split_ifs <;>
        simp [CacheCleaner.clean_caches, CacheCleaner.clean_logs,
          CacheCleaner.clean_temp_files, CacheCleaner.zero_clean]
    · split_ifs <;>
        simp [CacheCleaner.clean_caches, CacheCleaner.clean_logs,
          CacheCleaner.clean_temp_files, CacheCleaner.zero_clean]

/-- **C2** counterexample: a photo-pass record younger than
`min_file_age_hours` (age 0 h, floor 24 h) is in the scan results with
`safe_to_delete = true` — `_get_enhanced_file_info` has no age gate. -/
theorem c2_counterexample :
    ¬ (∀ f ∈ SystemScanner.scan_directory_for_photos confB 0 fsB
          ["/home/u/Pictures/new.jpg"],
        0 - f.modified < confB.min_file_age_hours * 3600 →
          f.safe_to_delete = false) := by
  decide

/-- **C2** amended: the basic directory passes (via `_get_file_info`) never
emit a record younger than `min_file_age_hours` at all — such files are
skipped — so for them the claim holds vacuously; the enhanced passes carry no
age gate. -/
theorem c2_basic_pass_age_floor (conf : Config) (now : Int) (fs : Fs)
    (root : String) (walk : List String) (category : String)
    (pats : Option (List String)) :
    ∀ f ∈ SystemScanner.scan_directory conf now fs root walk category pats,
      ∃ e, fs f.path = some e ∧ f.modified = e.mtime ∧
        ¬(now - e.mtime < conf.min_file_age_hours * 3600) := by
  intro f hf
  unfold SystemScanner.scan_directory at hf
  by_cases hex : SystemScanner.is_path_excluded conf root = true
  · rw [if_pos hex] at hf; cases hf
  · rw [if_neg hex] at hf
    rw [List.mem_filterMap] at hf
    obtain ⟨p, _, heq⟩ := hf
    have heq' : SystemScanner.get_file_info conf now fs p category = some f := by
      cases pats with
      | none => exact heq
      | some ps =>
        simp only at heq
        by_cases hm : ps.any (fun pat => pathMatch pat p) = true
        · rw [if_pos hm] at heq; exact heq
        · rw [if_neg hm] at heq; cases heq
    obtain ⟨e, he, hpath, _, hmod, hage, _⟩ :=
      get_file_info_some conf now fs p category f heq'
    exact ⟨e, hpath ▸ he, hmod, hage⟩

/-- Witness for C2 amended: a 100-hour-old temp record against a 24-hour
floor. -/
theorem c2_witness :
    ∃ e, fsW recW1.path = some e ∧ recW1.modified = e.mtime ∧
      ¬((360000 : Int) - e.mtime < confB.min_file_age_hours * 3600) :=
  c2_basic_pass_age_floor confB 360000 fsW "/r" ["/r/x.dat"] "temp" none
    recW1 (by decide)

/-- **C6** counterexample: one safe 100-byte temp record, no duplicates, no
photos.  The aggregator reports 0 potential savings while the spec's formula
(safe cache/temp/log bytes) gives 100. -/
theorem c6_counterexample :
    (SystemScanner.calculate_enhanced_scan_results filesC6 [] [] []
      0).potential_savings = 0 ∧
    spec_potential_savings filesC6 [] [] = 100 ∧
    ¬((SystemScanner.calculate_enhanced_scan_results filesC6 [] [] []
        0).potential_savings = spec_potential_savings filesC6 [] []) := by
  refine ⟨by decide, by decide, by decide⟩

/-- `cache_bytes` ignores the `safe_to_delete` flag entirely. -/
theorem cache_bytes_map_safe (files : List FileInfo) (b : Bool) :
    cache_bytes (files.map (fun f => { f with safe_to_delete := b })) =
      cache_bytes files := by
  induction files with
  | nil => rfl
  | cons f t ih =>
    unfold cache_bytes at *
    by_cases h : strContains f.category "cache" = true <;>
      simp [List.filter_cons, h, ih]

/-- **C6** amended: the aggregator's potential savings is the bytes of all
records whose category contains `"cache"` (irrespective of `safe_to_delete`;
temp and log categories are not counted), plus duplicate-group savings, plus
the per-format photo estimate; flipping every record's `safe_to_delete` flag
does not change it. -/
theorem c6_potential_savings_formula (files : List FileInfo)
    (groups : List DuplicateGroup) (photos : List PhotoAnalysis)
    (errors : List String) (d : ℚ) :
    (SystemScanner.calculate_enhanced_scan_results files groups photos errors
      d).potential_savings =
      (cache_bytes files : Int) + dup_savings_total groups +
        (photo_savings_total photos : Int) ∧
    ∀ b : Bool,
      (SystemScanner.calculate_enhanced_scan_results
        (files.map (fun f => { f with safe_to_delete := b })) groups photos
        errors d).potential_savings =
      (SystemScanner.calculate_enhanced_scan_results files groups photos
        errors d).potential_savings := by
  have hform : ∀ fl : List FileInfo,
      (SystemScanner.calculate_enhanced_scan_results fl groups photos errors
        d).potential_savings =
      (cache_bytes fl : Int) + dup_savings_total groups +
        (photo_savings_total photos : Int) := by
    intro fl
    simp only [SystemScanner.calculate_enhanced_scan_results, cache_bytes,
      dup_savings_total, photo_savings_total]
    simp [Nat.cast_list_sum, List.map_map, Function.comp_def]
  refine ⟨hform files, ?_⟩
  intro b
  rw [hform, hform, cache_bytes_map_safe]

/-- **C7** counterexample: a zero-byte photo is placed into the photo-pass
results — `_get_enhanced_file_info` has no zero-size gate. -/
theorem c7_counterexample :
    ¬ (∀ f ∈ SystemScanner.scan_directory_for_photos confB 0 fsC
          ["/h/Pictures/z.jpg"], 0 < f.size) := by
  decide

/-- **C7** amended: the basic passes skip zero-byte files, the duplicate pass
keeps only files over 1 KiB, and the large-file pass only files over 10 MiB;
the photo and old-file passes have no size gate (see the counterexample). -/
theorem c7_pass_size_thresholds (conf : Config) (now : Int) (fs : Fs)
    (root : String) (walk : List String) (category : String)
    (pats : Option (List String)) :
    (∀ f ∈ SystemScanner.scan_directory conf now fs root walk category pats,
      0 < f.size) ∧
    (∀ f ∈ SystemScanner.scan_directory_for_duplicates conf now fs walk,
      1024 < f.size) ∧
    (∀ f ∈ SystemScanner.scan_directory_for_large_files conf now fs walk,
      10 * 1024 * 1024 < f.size) := by
  refine ⟨?_, ?_, ?_⟩
  · intro f hf
    unfold SystemScanner.scan_directory at hf
    by_cases hex : SystemScanner.is_path_excluded conf root = true
    · rw [if_pos hex] at hf; cases hf
    · rw [if_neg hex] at hf
      rw [List.mem_filterMap] at hf
      obtain ⟨p, _, heq⟩ := hf
      have heq' : SystemScanner.get_file_info conf now fs p category =
          some f := by
        cases pats with
        | none => exact heq
        | some ps =>
          simp only at heq
          by_cases hm : ps.any (fun pat => pathMatch pat p) = true
          · rw [if_pos hm] at heq; exact heq
          · rw [if_neg hm] at heq; cases heq
      obtain ⟨e, _, _, hsize, _, _, hnz, _⟩ :=
        get_file_info_some conf now fs p category f heq'
      omega
  · intro f hf
    unfold SystemScanner.scan_directory_for_duplicates at hf
    rw [List.mem_filterMap] at hf
    obtain ⟨p, _, heq⟩ := hf
    cases hi : SystemScanner.get_enhanced_file_info conf now fs p
        "potential_duplicate" with
    | none => rw [hi] at heq; cases heq
    | some fi =>
      rw [hi] at heq
      simp only [Option.some_bind] at heq
      by_cases hsz : fi.size > 1024
      · rw [if_pos hsz] at heq
        cases heq
        exact hsz
      · rw [if_neg hsz] at heq
        cases heq
  · intro f hf
    unfold SystemScanner.scan_directory_for_large_files at hf
    rw [List.mem_filterMap] at hf
    obtain ⟨p, _, heq⟩ := hf
    cases hfs : fs p with
    | none => rw [hfs] at heq; cases heq
    | some e =>
      rw [hfs] at heq
      simp only at heq
      by_cases hsz : e.size > 10 * 1024 * 1024
      · rw [if_pos hsz] at heq
        obtain ⟨e2, he2, _, hsize, _⟩ :=
          get_enhanced_file_info_some conf now fs p "large_file" f heq
        rw [hfs] at he2
        cases he2
        omega
      · rw [if_neg hsz] at heq; cases heq

/-- Witness for C7 amended: concrete basic / duplicate / large-file pass
records over `fsW`. -/
theorem c7_witness :
    0 < recW1.size ∧ 1024 < recW2.size ∧ 10 * 1024 * 1024 < recW3.size :=
  ⟨(c7_pass_size_thresholds confB 360000 fsW "/r" ["/r/x.dat"] "temp"
      none).1 recW1 (by decide),
   (c7_pass_size_thresholds confB 0 fsW "/r" ["/r/d.dat"] "temp"
      none).2.1 recW2 (by decide),
   (c7_pass_size_thresholds confB 0 fsW "/r" ["/r/L.dat"] "temp"
      none).2.2 recW3 (by decide)⟩

/-! ### Structure lemmas for `_analyze_duplicates` -/

/-- `set_hashes` only (possibly) writes the `hash` field. -/
theorem set_hashes_mem (fs : Fs) (files : List FileInfo) :
    ∀ f ∈ SystemScanner.set_hashes fs files,
      ∃ f₀ ∈ files, f.path = f₀.path ∧ f.size = f₀.size ∧
        f.safe_to_delete = f₀.safe_to_delete ∧ f.category = f₀.category ∧
        (f.hash = f₀.hash ∨
          f.hash = some (SystemScanner.calculate_file_hash fs f₀.path)) := by
  intro f hf
  rw [SystemScanner.set_hashes, List.mem_map] at hf
  obtain ⟨f₀, h0, heq⟩ := hf
  by_cases hb : SystemScanner.in_hashed_bucket files f₀ = true
  · rw [if_pos hb] at heq
    subst heq
    exact ⟨f₀, h0, rfl, rfl, rfl, rfl, Or.inr rfl⟩
  · rw [if_neg hb] at heq
    subst heq
    exact ⟨f₀, h0, rfl, rfl, rfl, rfl, Or.inl rfl⟩

/-- `mark_one` never touches `path`, `size`, `hash` or `category`. -/
theorem mark_one_fields (hashed : List FileInfo) (i : Nat) (f : FileInfo) :
    (SystemScanner.mark_one hashed i f).path = f.path ∧
    (SystemScanner.mark_one hashed i f).size = f.size ∧
    (SystemScanner.mark_one hashed i f).hash = f.hash ∧
    (SystemScanner.mark_one hashed i f).category = f.category := by
  unfold SystemScanner.mark_one
  cases h : SystemScanner.truthyHash f with
  | none => exact ⟨rfl, rfl, rfl, rfl⟩
  | some hh =>
    dsimp only
    split_ifs <;> exact ⟨rfl, rfl, rfl, rfl⟩

/-- Members of a marked list are `mark_one` images of members of the input. -/
theorem mark_from_mem (hashed : List FileInfo) :
    ∀ (l : List FileInfo) (i : Nat) (f : FileInfo),
      f ∈ SystemScanner.mark_from hashed i l →
      ∃ j f₀, f₀ ∈ l ∧ f = SystemScanner.mark_one hashed j f₀ := by
  intro l
  induction l with
  | nil => intro i f hf; cases hf
  | cons a t ih =>
    intro i f hf
    rw [SystemScanner.mark_from, List.mem_cons] at hf
    cases hf with
    | inl h => exact ⟨i, a, List.mem_cons_self a t, h⟩
    | inr h =>
      obtain ⟨j, f₀, hm, he⟩ := ih (i + 1) f h
      exact ⟨j, f₀, List.mem_cons_of_mem a hm, he⟩

/-- Positional description of the marking pass. -/
theorem mark_from_get (hashed : List FileInfo) :
    ∀ (l : List FileInfo) (i k : Nat),
      (SystemScanner.mark_from hashed i l).get? k =
        (l.get? k).map (SystemScanner.mark_one hashed (i + k)) := by
  intro l
  induction l with
  | nil => intro i k; simp [SystemScanner.mark_from]
  | cons a t ih =>
    intro i k
    cases k with
    | zero => simp [SystemScanner.mark_from]
    | succ k =>
      rw [SystemScanner.mark_from]
      show (SystemScanner.mark_from hashed (i + 1) t).get? k = _
      rw [ih (i + 1) k]
      have : i + 1 + k = i + (k + 1) := by omega
      rw [this]
      rfl

/-- A truthy hash value is the stored hash and is nonempty. -/
theorem truthyHash_some (f : FileInfo) (h : String)
    (ht : SystemScanner.truthyHash f = some h) :
    f.hash = some h ∧ h ≠ "" := by
  unfold SystemScanner.truthyHash at ht
  cases hh : f.hash with
  | none => rw [hh] at ht; cases ht
  | some s =>
    rw [hh] at ht
    simp only at ht
    by_cases hs : s = ""
    · rw [if_pos hs] at ht; cases ht
    · rw [if_neg hs] at ht
      cases ht
      exact ⟨rfl, hs⟩

/-- `first_dedup` only reorders/removes: every output element occurs in the
input. -/
theorem first_dedup_sub (l : List String) (x : String)
    (hx : x ∈ SystemScanner.first_dedup l) : x ∈ l := by
  have key : ∀ (l : List String) (acc : List String),
      x ∈ l.foldl (fun acc y => if y ∈ acc then acc else acc ++ [y]) acc →
        x ∈ acc ∨ x ∈ l := by
    intro l
    induction l with
    | nil => intro acc h; exact Or.inl h
    | cons y t ih =>
      intro acc h
      rw [List.foldl_cons] at h
      rcases ih _ h with hacc | ht
      · by_cases hy : y ∈ acc
        · rw [if_pos hy] at hacc; exact Or.inl hacc
        · rw [if_neg hy] at hacc
          rw [List.mem_append] at hacc
          rcases hacc with h1 | h2
          · exact Or.inl h1
          · rw [List.mem_singleton] at h2
            exact Or.inr (h2 ▸ List.mem_cons_self y t)
      · exact Or.inr (List.mem_cons_of_mem y ht)
  rcases key l [] hx with h | h
  · cases h
  · exact h

/-- Inverting `make_duplicate_groups`: every produced group has a nonempty
hash, its members are exactly the records carrying that hash, it has at least
two members, and its totals follow the source formulas. -/
theorem make_duplicate_groups_mem (final : List FileInfo) (g : DuplicateGroup)
    (hg : g ∈ SystemScanner.make_duplicate_groups final) :
    g.hash ≠ "" ∧
    g.files = final.filter (fun f => f.hash == some g.hash) ∧
    g.files.length > 1 ∧
    g.total_size = (g.files.map (fun f => f.size)).sum ∧
    g.potential_savings =
      (g.total_size : Int) - SystemScanner.min_size g.files := by
  unfold SystemScanner.make_duplicate_groups at hg
  rw [List.mem_filterMap] at hg
  obtain ⟨h, hdl, heq⟩ := hg
  have hl := first_dedup_sub _ h hdl
  rw [List.mem_filterMap] at hl
  obtain ⟨f0, _, ht0⟩ := hl
  have hne := (truthyHash_some f0 h ht0).2
  simp only at heq
  by_cases hlen : (final.filter (fun f => f.hash == some h)).length > 1
  · rw [if_pos hlen] at heq
    cases heq
    refine ⟨hne, rfl, hlen, rfl, ?_⟩
    simp [Nat.cast_list_sum, List.map_map, Function.comp_def]
  · rw [if_neg hlen] at heq
    cases heq

/-- The running minimum never exceeds its seed. -/
theorem foldl_min_le (t : List FileInfo) :
    ∀ m : Nat, t.foldl (fun m g => Nat.min m g.size) m ≤ m := by
  induction t with
  | nil => intro m; simp
  | cons a t ih =>
    intro m
    rw [List.foldl_cons]
    exact le_trans (ih _) (Nat.min_le_left _ _)

/-- Over constant sizes the running minimum is the seed. -/
theorem foldl_min_const (t : List FileInfo) :
    ∀ m : Nat, (∀ g ∈ t, g.size = m) →
      t.foldl (fun m g => Nat.min m g.size) m = m := by
  induction t with
  | nil => intro m _; rfl
  | cons a t ih =>
    intro m hall
    rw [List.foldl_cons, hall a (List.mem_cons_self a t)]
    have hmm : Nat.min m m = m := by simp [Nat.min_def]
    rw [hmm]
    exact ih m (fun g hgmem => hall g (List.mem_cons_of_mem a hgmem))

/-- The minimum member size never exceeds the total size. -/
theorem min_size_le_sum (l : List FileInfo) (hl : l ≠ []) :
    SystemScanner.min_size l ≤ (l.map (fun f => f.size)).sum := by
  cases l with
  | nil => cases hl rfl
  | cons f t =>
    unfold SystemScanner.min_size
    calc t.foldl (fun m g => Nat.min m g.size) f.size ≤ f.size :=
          foldl_min_le t f.size
      _ ≤ f.size + (t.map (fun f => f.size)).sum := Nat.le_add_right _ _
      _ = ((f :: t).map (fun f => f.size)).sum := by simp

/-- When all members share one size, the minimum is the head's size. -/
theorem min_size_const (l : List FileInfo) (s : Nat) (hl : l ≠ [])
    (hall : ∀ f ∈ l, f.size = s) : SystemScanner.min_size l = s := by
  cases l with
  | nil => cases hl rfl
  | cons f t =>
    show t.foldl (fun m g => Nat.min m g.size) f.size = s
    rw [hall f (List.mem_cons_self f t)]
    exact foldl_min_const t s
      (fun g hgmem => hall g (List.mem_cons_of_mem f hgmem))

/-- A blacklisted path always fails the scanner's safety policy (the
whitelist and blacklist checks precede every other rule, and both veto). -/
theorem blacklist_policy_false (conf : Config) (path cat : String)
    (hbl : containsAny conf.blacklist_paths path = true) :
    SystemScanner.is_safe_to_delete conf path cat = false := by
  unfold SystemScanner.is_safe_to_delete
  split_ifs with h1 h2 h3 h4
  · rfl
  · rfl
  · rfl
  · exact absurd hbl h2
  · exact absurd hbl h2

/-- **C4**: every `DuplicateGroup` satisfies
`potential_savings = total_size - min member size ≥ 0`; under the group
invariant that all members share one size (the spec's own `DuplicateGroup`
invariant, violable only by an MD5 collision between different-length
contents), this equals `total_size` minus the retained (first) member's
size. -/
theorem c4_duplicate_group_savings (fs : Fs) (files : List FileInfo) :
    ∀ g ∈ (SystemScanner.analyze_duplicates fs files).2,
      0 ≤ g.potential_savings ∧
      g.potential_savings =
        (g.total_size : Int) - SystemScanner.min_size g.files ∧
      ((∀ f ∈ g.files, f.size = retained_size g) →
        g.potential_savings = (g.total_size : Int) - retained_size g) := by
  intro g hg
  have hg' : g ∈ SystemScanner.make_duplicate_groups
      (SystemScanner.mark_duplicates (SystemScanner.set_hashes fs files)) := hg
  obtain ⟨_, _, hlen, htot, hsav⟩ := make_duplicate_groups_mem _ g hg'
  have hnil : g.files ≠ [] := by
    intro h; rw [h] at hlen; simp at hlen
  refine ⟨?_, hsav, ?_⟩
  · rw [hsav, htot]
    have := min_size_le_sum g.files hnil
    omega
  · intro hall
    rw [hsav, min_size_const g.files (retained_size g) hnil hall]

set_option maxRecDepth 4000000 in
/-- Witness for C4 at the concrete two-member group over `fsA`. -/
theorem c4_witness :
    0 ≤ groupA.potential_savings ∧
    groupA.potential_savings = (groupA.total_size : Int) -
      retained_size groupA := by
  have hmem : groupA ∈ (SystemScanner.analyze_duplicates fsA recsA).2 := by
    rw [show (SystemScanner.analyze_duplicates fsA recsA).2 = [groupA]
      from rfl]
    exact List.mem_singleton.mpr rfl
  have h := c4_duplicate_group_savings fsA recsA groupA hmem
  exact ⟨h.1, h.2.2 (by decide)⟩

/-- **C10**: a failed read makes `_calculate_file_hash` return `""` instead
of raising; empty-hash records never enter hash groups, so every
`DuplicateGroup` has a nonempty hash and only members whose reads
succeeded. -/
theorem c10_hash_error_containment (fs : Fs) (files : List FileInfo)
    (hn : ∀ f ∈ files, f.hash = none) :
    (∀ path, fs path = none →
      SystemScanner.calculate_file_hash fs path = "") ∧
    (∀ path e, fs path = some e → e.content = none →
      SystemScanner.calculate_file_hash fs path = "") ∧
    (∀ g ∈ (SystemScanner.analyze_duplicates fs files).2,
      g.hash ≠ "" ∧
      ∀ f ∈ g.files, ∃ e c, fs f.path = some e ∧ e.content = some c) := by
  refine ⟨?_, ?_, ?_⟩
  · intro path hp
    simp only [SystemScanner.calculate_file_hash, hp]
  · intro path e hp hc
    simp only [SystemScanner.calculate_file_hash, hp, hc]
  · intro g hg
    have hg' : g ∈ SystemScanner.make_duplicate_groups
        (SystemScanner.mark_duplicates (SystemScanner.set_hashes fs files)) :=
      hg
    obtain ⟨hne, hfiles, _, _, _⟩ := make_duplicate_groups_mem _ g hg'
    refine ⟨hne, ?_⟩
    intro f hf
    rw [hfiles, List.mem_filter] at hf
    obtain ⟨hmem, hhashb⟩ := hf
    have hhash : f.hash = some g.hash := by simpa using hhashb
    have hmem' : f ∈ SystemScanner.mark_from (SystemScanner.set_hashes fs
        files) 0 (SystemScanner.set_hashes fs files) := hmem
    obtain ⟨j, f₀, hh0, hfeq⟩ := mark_from_mem _ _ 0 f hmem'
    have hfields := mark_one_fields (SystemScanner.set_hashes fs files) j f₀
    obtain ⟨f₁, h1, hpath, _, _, _, hhash2⟩ := set_hashes_mem fs files f₀ hh0
    subst hfeq
    rcases hhash2 with hcase | hcase
    · rw [hfields.2.2.1, hcase, hn f₁ h1] at hhash
      cases hhash
    · rw [hfields.2.2.1, hcase] at hhash
      have hcalc : SystemScanner.calculate_file_hash fs f₁.path = g.hash :=
        Option.some.inj hhash
      have hfp : (SystemScanner.mark_one (SystemScanner.set_hashes fs files)
          j f₀).path = f₁.path := by rw [hfields.1, hpath]
      cases hfs : fs f₁.path with
      | none =>
        unfold SystemScanner.calculate_file_hash at hcalc
        rw [hfs] at hcalc
        exact absurd hcalc.symm hne
      | some e =>
        cases hc : e.content with
        | none =>
          unfold SystemScanner.calculate_file_hash at hcalc
          rw [hfs] at hcalc
          simp only [hc] at hcalc
          exact absurd hcalc.symm hne
        | some c =>
          exact ⟨e, c, by rw [hfp]; exact hfs, hc⟩

/-- Witness for C10 at a file system where every read fails. -/
theorem c10_witness :
    SystemScanner.calculate_file_hash (fun _ => none) "/gone" = "" :=
  (c10_hash_error_containment (fun _ => none) [] (by simp)).1 "/gone" rfl

set_option maxRecDepth 4000000 in
/-- **C1** counterexample: over `fsA`, the record under the blacklisted
`secret` directory starts with `safe_to_delete = false` from the policy, yet
after `_analyze_duplicates` runs it is in the final scan results with
`safe_to_delete = true` — duplicate marking overrides the blacklist. -/
theorem c1_counterexample :
    ¬ (∀ f ∈ (SystemScanner.analyze_duplicates fsA recsA).1,
        containsAny confA.blacklist_paths f.path = true →
          f.safe_to_delete = false) := by
  intro hall
  have hmem : recSecretMarked ∈
      (SystemScanner.analyze_duplicates fsA recsA).1 := by
    rw [show (SystemScanner.analyze_duplicates fsA recsA).1 =
      [recKeepA, recSecretMarked] from rfl]
    exact List.mem_cons_of_mem _ (List.mem_singleton.mpr rfl)
  have h := hall recSecretMarked hmem (by decide)
  simp [recSecretMarked] at h

/-- **C1** amended: the policy makes every blacklisted path unsafe, and in
the final scan results a blacklisted record can only be `safe_to_delete`
when the duplicate marking fired at its position (it carries a shared truthy
hash and is not the first record with that hash). -/
theorem c1_blacklist_vs_duplicate_marking (conf : Config) (fs : Fs)
    (files : List FileInfo)
    (hin : ∀ f ∈ files, f.safe_to_delete =
      SystemScanner.is_safe_to_delete conf f.path f.category) :
    (∀ path cat, containsAny conf.blacklist_paths path = true →
      SystemScanner.is_safe_to_delete conf path cat = false) ∧
    (∀ i f, (SystemScanner.analyze_duplicates fs files).1.get? i = some f →
      containsAny conf.blacklist_paths f.path = true →
      f.safe_to_delete = true →
      SystemScanner.dup_marked (SystemScanner.set_hashes fs files) i =
        true) := by
  refine ⟨fun path cat hbl => blacklist_policy_false conf path cat hbl, ?_⟩
  intro i f hget hbl hsafe
  set hashed := SystemScanner.set_hashes fs files with hhashed
  have hget' : (SystemScanner.mark_from hashed 0 hashed).get? i = some f :=
    hget
  rw [mark_from_get hashed hashed 0 i, Nat.zero_add] at hget'
  cases hh : hashed.get? i with
  | none => rw [hh] at hget'; cases hget'
  | some f' =>
    rw [hh] at hget'
    have hfeq : f = SystemScanner.mark_one hashed i f' := by
      simpa using hget'.symm
    have hf'mem : f' ∈ hashed := by
      have := List.get?_mem hh
      exact this
    obtain ⟨f₁, h1, hpath1, _, hsafe1, hcat1, _⟩ :=
      set_hashes_mem fs files f' hf'mem
    have hfields := mark_one_fields hashed i f'
    have hfp : f.path = f'.path := by rw [hfeq]; exact hfields.1
    have hpolicy : f'.safe_to_delete = false := by
      rw [hsafe1, hin f₁ h1, ← hpath1, ← hcat1]
      exact blacklist_policy_false conf f'.path f'.category (hfp ▸ hbl)
    unfold SystemScanner.dup_marked
    rw [hh]
    cases ht : SystemScanner.truthyHash f' with
    | none =>
      exfalso
      rw [hfeq] at hsafe
      unfold SystemScanner.mark_one at hsafe
      rw [ht] at hsafe
      rw [hsafe] at hpolicy
      cases hpolicy
    | some hs =>
      simp only
      by_cases hcnt : SystemScanner.countHash hashed hs > 1
      · by_cases htake :
          (hashed.take i).countP (fun g => g.hash == some hs) > 0
        · simp only [ht]
          rw [decide_eq_true hcnt, decide_eq_true htake]
          rfl
        · exfalso
          rw [hfeq] at hsafe
          unfold SystemScanner.mark_one at hsafe
          rw [ht] at hsafe
          simp only [if_pos hcnt, if_neg htake] at hsafe
          rw [hsafe] at hpolicy
          cases hpolicy
      · exfalso
        rw [hfeq] at hsafe
        unfold SystemScanner.mark_one at hsafe
        rw [ht] at hsafe
        simp only [if_neg hcnt] at hsafe
        rw [hsafe] at hpolicy
        cases hpolicy

set_option maxRecDepth 4000000 in
/-- Witness for C1 amended: over `fsA` the blacklisted record sits at index 1
of the final results with `safe_to_delete = true`, and the theorem pins this
on the duplicate marking having fired there. -/
theorem c1_amended_witness :
    SystemScanner.dup_marked (SystemScanner.set_hashes fsA recsA) 1 =
      true := by
  have h := (c1_blacklist_vs_duplicate_marking confA fsA recsA
    (by decide)).2 1 recSecretMarked
  exact h (by rw [show (SystemScanner.analyze_duplicates fsA recsA).1 =
      [recKeepA, recSecretMarked] from rfl]; rfl) (by decide) rfl

/-- Witness for C3 at a concrete cleanup call. -/
theorem c3_witness :
    (PurrifyEngine.clean_system [("caches", true)] true true ["home"]).2 =
      ["home"] ∧
    (PurrifyEngine.clean_system [("caches", true)] true true
      ["home"]).1.files_cleaned = 0 ∧
    (PurrifyEngine.clean_system [("caches", true)] true true
      ["home"]).1.clean_errors = [] := by
  have h := c3_safe_mode_no_mutation [("caches", true)] true ["home"]
  exact ⟨h.1, h.2.1, h.2.2.2.2.2 rfl⟩

end Purrify

